import Mathlib

/-!
Verification development for the ERRAT structural-quality analyzer
(`src/lib.rs` of the ERRAT-Rust repository).

Modelling conventions, chosen once and used throughout:

* Rust `f64` arithmetic is modelled by exact rational arithmetic (`ℚ`).
  Every floating-point constant of the source is a decimal literal, so it is
  reproduced here as the exact decimal rational.  The only non-rational
  operation of the scoring core is `f64::sqrt`, which occurs in a single
  expression (`2.0 * (RADIUS - dsq.sqrt())` in `compute_window`); it is
  abstracted as an explicit function parameter `sqrtFn : ℚ → ℚ` threaded
  through the definitions.  All theorems below hold for every `sqrtFn`, and
  every concrete evaluation in this file only exercises distances for which
  the square-root branch is not taken.
* Rust fixed-size arrays/`Vec`s indexed by `usize` are modelled as total
  functions from the index type, updated with `Function.update`; the unwritten
  entries hold the same zero/blank initial values the source pre-fills
  (`vec![0i32; ..]`, `vec![b' '; ..]`, `vec![0.0f64; ..]`).  `Vec::resize`
  with fill `0.0` is a no-op in this representation.
* `as i32` / `as usize` casts are modelled by `f64_to_i32` (truncation toward
  zero with i32 saturation, the Rust float-to-int cast semantics) and
  `usize_of_int` (two's-complement wrap, the Rust int-to-int cast semantics).
-/

/-! ### Global constants (`src/lib.rs`, lines 8-16) -/

def SIZE : ℕ := 250000

def BXMX : ℤ := 200000

def CHAINDIF : ℤ := 10000

def BOXSIZE : ℚ := 4.0

def RADIUS : ℚ := 3.75

def RADMIN : ℚ := 3.25

def MAXWIN : ℚ := 100.694

def LMT_95 : ℚ := 11.526684477428809

def LMT_99 : ℚ := 17.190823041860433

/-! ### Numeric cast helpers -/

/-- Saturation of an integer into the `i32` range (Rust float-to-int casts
saturate). -/
def i32_sat (t : ℤ) : ℤ := max (-(2 ^ 31)) (min (2 ^ 31 - 1) t)

/-- Rust `f64 as i32`: truncation toward zero, then saturation. -/
def f64_to_i32 (q : ℚ) : ℤ := i32_sat (if 0 ≤ q then ⌊q⌋ else -⌊-q⌋)

/-- Rust `i32 as usize` (64-bit): two's-complement wrap into `[0, 2^64)`. -/
def usize_of_int (z : ℤ) : ℕ := (z % (2 ^ 64)).toNat

/-- Integer interval `[a, b]` as a list, empty when `b < a` (the Rust
range `a..=b` over integers). -/
def int_range (a b : ℤ) : List ℤ := (List.range (b + 1 - a).toNat).map (fun k => a + (k : ℤ))

/-! ### The atom table (`struct AtomData`, `src/lib.rs` lines 29-41)

The parallel `Vec`s of the source become functions from the (1-based) atom
index; `atmnum` is the index of the last retained atom. -/

structure AtomData where
  atmnum : ℕ
  name : ℕ → ℤ
  bnam : ℕ → ℤ
  chain_id : ℕ → Char
  res_seq : ℕ → ℤ
  resnum : ℕ → ℤ
  xyz_x : ℕ → ℚ
  xyz_y : ℕ → ℚ
  xyz_z : ℕ → ℚ
  errat : ℕ → ℚ

/-! ### The discriminant scorer (`matrixdb`, `src/lib.rs` lines 1695-1769) -/

/-- The fixed symmetric 5×5 calibration matrix `b1` of `matrixdb`
(1-based indices as in the source; row 0 / column 0 are the unused zeros). -/
def b1 (j k : ℕ) : ℚ :=
  match j, k with
  | 1, 1 => 5040.279078850848
  | 1, 2 => 3408.8051415836494
  | 1, 3 => 4152.904423767301
  | 1, 4 => 4236.20000417189
  | 1, 5 => 5054.7812102046255
  | 2, 1 => 3408.805141583649
  | 2, 2 => 8491.906094010221
  | 2, 3 => 5958.88177787795
  | 2, 4 => 1521.3873527184862
  | 2, 5 => 4304.078200827222
  | 3, 1 => 4152.9044237673015
  | 3, 2 => 5958.881777877952
  | 3, 3 => 7637.16708933505
  | 3, 4 => 6620.7157382230725
  | 3, 5 => 5287.691183798411
  | 4, 1 => 4236.20000417189
  | 4, 2 => 1521.3873527184862
  | 4, 3 => 6620.7157382230725
  | 4, 4 => 18368.34377429841
  | 4, 5 => 4050.7978111188067
  | 5, 1 => 5054.7812102046255
  | 5, 2 => 4304.078200827221
  | 5, 3 => 5287.69118379841
  | 5, 4 => 4050.7978111188067
  | 5, 5 => 6666.856740479165
  | _, _ => 0

/-- The fixed empirical mean vector `avg` of `matrixdb` (1-based). -/
def avg (u : ℕ) : ℚ :=
  match u with
  | 1 => 0.192765509919262
  | 2 => 0.195575208778518
  | 3 => 0.275322406824210
  | 4 => 0.059102357035642
  | 5 => 0.233154192767480
  | _ => 0

/-- `matrixdb`: subtract the mean vector, then apply `b1` as a quadratic
form, accumulating exactly as the source loops do (`c[j] = Σ_k v[k]*b1[k][j]`,
`total = Σ_k c[k]*v[k]`). -/
def matrixdb (matrix : ℕ → ℚ) : ℚ :=
  let v : ℕ → ℚ := fun u => matrix u - avg u
  let c : ℕ → ℚ := fun j => (List.range 5).foldl (fun x k => x + v (k + 1) * b1 (k + 1) j) 0
  (List.range 5).foldl (fun t k => t + c (k + 1) * v (k + 1)) 0

/-! ### Window outcomes and the aggregator
(`enum WindowOutcome` lines 818-822, aggregation loop lines 1087-1114) -/

inductive WindowOutcome where
  | warn : ℤ → WindowOutcome
  | value : ℕ → ℚ → WindowOutcome
deriving DecidableEq

/-- The sequential aggregation state: `stat` (scored-window count), `pstat`
(flagged count), `mtrxstat` (sum of scores), and the error profile being
filled in. -/
@[ext]
structure AggState where
  stat : ℚ
  pstat : ℚ
  mtrxstat : ℚ
  errat : ℕ → ℚ

/-- One step of the sequential aggregation loop of `compute_errat`
(lines 1087-1114): a `Value` outcome bumps `stat`, adds the score, bumps
`pstat` through the `> LMT_99` / `else if > LMT_95` pairing, and writes the
score into the profile slot; a `Warn` outcome only logs. -/
def agg_step (a : AggState) (o : Option WindowOutcome) : AggState :=
  match o with
  | some (.warn _) => a
  | some (.value idx mtrx) =>
      { stat := a.stat + 1
        pstat :=
          if LMT_99 < mtrx then a.pstat + 1
          else if LMT_95 < mtrx then a.pstat + 1
          else a.pstat
        mtrxstat := a.mtrxstat + mtrx
        errat := Function.update a.errat idx mtrx }
  | none => a

/-- The whole sequential reduction, starting from zero counters and the
profile `e0` inherited from parsing (`data.errat.clone()`, line 1059). -/
def aggregate_outcomes (e0 : ℕ → ℚ) (l : List (Option WindowOutcome)) : AggState :=
  l.foldl agg_step { stat := 0, pstat := 0, mtrxstat := 0, errat := e0 }

/-- Scored-outcome test (an outcome that carries a score). -/
def is_scored (o : Option WindowOutcome) : Bool :=
  match o with
  | some (.value _ _) => true
  | _ => false

/-- Flagged-outcome test: a scored outcome whose score exceeds the 95%
confidence constant. -/
def is_flagged (o : Option WindowOutcome) : Bool :=
  match o with
  | some (.value _ m) => decide (LMT_95 < m)
  | _ => false

/-- Sum of the scores of the scored outcomes of a list. -/
def score_sum (l : List (Option WindowOutcome)) : ℚ :=
  (l.filterMap (fun o =>
    match o with
    | some (.value _ m) => some m
    | _ => none)).sum

/-- Profile slots of the scored outcomes of a list, in order. -/
def value_idxs (l : List (Option WindowOutcome)) : List ℕ :=
  l.filterMap (fun o =>
    match o with
    | some (.value idx _) => some idx
    | _ => none)

/-- The logged overall quality factor, `100.0 - (100.0 * pstat / stat)`
(lines 1127-1131 and again in `write_ps` line 1200). -/
def overall_quality (stat pstat : ℚ) : ℚ := 100 - 100 * pstat / stat

/-- The quality factor as exposed by `compute_errat`'s summary block
(lines 1117-1132): produced exactly when `stat > 0.0`, undefined otherwise. -/
def quality_factor (stat pstat : ℚ) : Option ℚ :=
  if 0 < stat then some (overall_quality stat pstat) else none

/-- The logged average error `mtrxstat / stat` (line 1126), same guard. -/
def avg_error (stat mtrxstat : ℚ) : Option ℚ :=
  if 0 < stat then some (mtrxstat / stat) else none

/-- The guard of `run` (line 85): the report-generation step
(`write_pdf` / `write_ps`) executes exactly when `stats.stat > 0.0`. -/
def report_step_runs (stat : ℚ) : Prop := 0 < stat

/-! ### The window scanner (`compute_window`, `src/lib.rs` lines 824-963) -/

/-- The residue-counting walk at the top of `compute_window`
(lines 836-844): starting with `s` residues counted at position `v`, walk
forward while fewer than 10 residues are counted and `v ≤ atmnum`, counting a
residue when the resnum delta to the next atom is in `(0, 100)` or when `v`
is the last atom of the whole sequence.  Returns the final `(s, v)`. -/
def scan_window (data : AtomData) (s v : ℕ) : ℕ × ℕ :=
  if h : s < 10 ∧ v ≤ data.atmnum then
    scan_window data
      (if (data.resnum (v + 1) - data.resnum v < 100 ∧
           0 < data.resnum (v + 1) - data.resnum v) ∨ v = data.atmnum
       then s + 1 else s)
      (v + 1)
  else (s, v)
termination_by data.atmnum + 1 - v
decreasing_by omega

/-- Straight-line count of the residue boundaries from position `w` to the
end of the atom sequence: the number of positions `w ≤ u < atmnum` whose
resnum delta is in `(0, 100)`.  Used to characterize `scan_window`. -/
def count_res (data : AtomData) (w : ℕ) : ℕ :=
  if _h : w < data.atmnum then
    (if data.resnum (w + 1) - data.resnum w < 100 ∧ 0 < data.resnum (w + 1) - data.resnum w
     then 1 else 0) + count_res data (w + 1)
  else 0
termination_by data.atmnum - w

/-! ### The spatial grid (`compute_errat`, `src/lib.rs` lines 1016-1054) -/

/-- Cell capacity `box_slots = 15` (line 1028). -/
def box_slots : ℕ := 15

/-- The grid: per-cell occupancy counters `ibox_counts` and the flattened
15-slot-per-cell atom-reference array `ibox_atoms`, both as functions of the
(integer) flat index. -/
structure Grid where
  counts : ℤ → ℤ
  atoms : ℤ → ℕ

/-- Cell coordinate of a point on one axis (lines 1035-1037 and 855-857):
`((coord - (min - 0.00001)) / BOXSIZE).floor() as i32`. -/
def cell_index (minq coord : ℚ) : ℤ := i32_sat ⌊(coord - (minq - 0.00001)) / BOXSIZE⌋

/-- Insertion of one atom `k + 1` into the grid (loop body, lines 1034-1046):
bump the cell counter, and store the atom reference in the next free slot
only while fewer than 15 are stored. -/
def grid_step (data : AtomData) (mn1 mn2 mn3 : ℚ) (nbx1 nbx2 : ℤ) (g : Grid) (k : ℕ) : Grid :=
  let i := k + 1
  let ix := cell_index mn1 (data.xyz_x i)
  let iy := cell_index mn2 (data.xyz_y i)
  let iz := cell_index mn3 (data.xyz_z i)
  let ind := 1 + ix + iy * nbx1 + iz * nbx1 * nbx2
  let temp := g.counts ind
  let counts' := Function.update g.counts ind (temp + 1)
  if temp < (box_slots : ℤ) then
    { counts := counts', atoms := Function.update g.atoms (ind * box_slots + temp) i }
  else
    { counts := counts', atoms := g.atoms }

/-- Grid construction (lines 1034-1046): insert every atom `1..=atmnum`. -/
def build_grid (data : AtomData) (mn1 mn2 mn3 : ℚ) (nbx1 nbx2 : ℤ) : Grid :=
  (List.range data.atmnum).foldl (grid_step data mn1 mn2 mn3 nbx1 nbx2)
    { counts := fun _ => 0, atoms := fun _ => 0 }

/-- Invariant of grid construction: every cell counter is nonnegative, and
every slot strictly below `min (count, 15)` of a cell's 15-slot block stores
the 1-based index of an atom already inserted (hence in `[1, bound]`). -/
def grid_inv (bound : ℕ) (g : Grid) : Prop :=
  ∀ ind : ℤ, 0 ≤ g.counts ind ∧
    ∀ m : ℤ, 0 ≤ m → m < min (g.counts ind) 15 →
      1 ≤ g.atoms (ind * box_slots + m) ∧ g.atoms (ind * box_slots + m) ≤ bound

/-! ### The contact classifier (`compute_window` body, lines 853-963) -/

/-- The soft contact weight (lines 918-931): `1.0` within the inner radius,
otherwise `2.0 * (RADIUS - sqrt dsq)`; the floating-point square root is the
abstracted `sqrtFn`. -/
def contact_weight (sqrtFn : ℚ → ℚ) (ssq dsq : ℚ) : ℚ :=
  if dsq ≤ ssq then 1 else 2 * (RADIUS - sqrtFn dsq)

/-- Add weight `w` to histogram cell `(q, r)`. -/
def hist_add (c : ℕ → ℕ → ℚ) (q r : ℕ) (w : ℚ) : ℕ → ℕ → ℚ :=
  fun a b => if a = q ∧ b = r then c a b + w else c a b

/-- Processing of one candidate neighbour `n` of window atom `rer`
(lines 900-935): skip same-residue pairs; skip pairs at or beyond the cutoff;
skip adjacent-residue backbone peptide-bond pairs entirely; inside the window
count the unordered pair once (only when `resnum rer > resnum n`); pairs with
`n` outside the window accumulate unconditionally. -/
def process_pair (sqrtFn : ℚ → ℚ) (data : AtomData) (i v rer n : ℕ) (rsq ssq : ℚ)
    (c : ℕ → ℕ → ℚ) : ℕ → ℕ → ℚ :=
  if data.resnum rer ≠ data.resnum n then
    let dx := data.xyz_x n - data.xyz_x rer
    let dy := data.xyz_y n - data.xyz_y rer
    let dz := data.xyz_z n - data.xyz_z rer
    let dsq := dx * dx + dy * dy + dz * dz
    if dsq < rsq then
      if data.bnam rer = 1 ∧ data.bnam n = 1 ∧
          ((data.resnum n = data.resnum rer + 1 ∧ data.name rer = 1 ∧ data.name n = 2) ∨
           (data.resnum rer = data.resnum n + 1 ∧ data.name rer = 2 ∧ data.name n = 1)) then
        c
      else if i ≤ n ∧ n ≤ v then
        if data.resnum n < data.resnum rer then
          hist_add c (usize_of_int (data.name rer)) (usize_of_int (data.name n))
            (contact_weight sqrtFn ssq dsq)
        else c
      else
        hist_add c (usize_of_int (data.name rer)) (usize_of_int (data.name n))
          (contact_weight sqrtFn ssq dsq)
    else c
  else c

/-- The reads of one grid cell during a neighbour query (lines 893-898):
at most `min (cell count) box_slots` stored references are visited. -/
def scan_cell (sqrtFn : ℚ → ℚ) (data : AtomData) (i v rer : ℕ) (g : Grid) (rsq ssq : ℚ)
    (ind : ℤ) (c : ℕ → ℕ → ℚ) : ℕ → ℕ → ℚ :=
  let limit := min (g.counts ind).toNat box_slots
  (List.range limit).foldl
    (fun c m => process_pair sqrtFn data i v rer (g.atoms (ind * box_slots + m)) rsq ssq c) c

/-- The neighbour query for one window atom `rer` (lines 854-939): locate its
cell, clamp the `±ndelta` cube to the grid extents, and scan every cell of
the cube. -/
def window_probe (sqrtFn : ℚ → ℚ) (data : AtomData) (i v : ℕ) (mn1 mn2 mn3 : ℚ)
    (nbx1 nbx2 nbx3 : ℤ) (g : Grid) (rsq ssq : ℚ) (ndelta : ℤ) (rer : ℕ)
    (c : ℕ → ℕ → ℚ) : ℕ → ℕ → ℚ :=
  let jbx := cell_index mn1 (data.xyz_x rer)
  let jby := cell_index mn2 (data.xyz_y rer)
  let jbz := cell_index mn3 (data.xyz_z rer)
  let ibz1 := max (jbz - ndelta) 0
  let ibz2 := min (jbz + ndelta) (nbx3 - 1)
  let iby1 := max (jby - ndelta) 0
  let iby2 := min (jby + ndelta) (nbx2 - 1)
  let ibx1 := max (jbx - ndelta) 0
  let ibx2 := min (jbx + ndelta) (nbx1 - 1)
  (int_range ibz1 ibz2).foldl
    (fun c j =>
      (int_range iby1 iby2).foldl
        (fun c k =>
          (int_range ibx1 ibx2).foldl
            (fun c l =>
              scan_cell sqrtFn data i v rer g rsq ssq (1 + l + k * nbx1 + j * nbx1 * nbx2) c)
            c)
        c)
    c

/-- One whole window evaluation (`compute_window`, lines 824-963): run the
residue walk, reject unless exactly 10 residues were counted and the local
residue number strictly increased, accumulate the contact histogram over the
window atoms, and either warn (under-sampled) or score via `matrixdb`. -/
def compute_window (sqrtFn : ℚ → ℚ) (i : ℕ) (data : AtomData) (mn1 mn2 mn3 : ℚ)
    (nbx1 nbx2 nbx3 : ℤ) (g : Grid) (rsq ssq : ℚ) (ndelta : ℤ) : Option WindowOutcome :=
  let sv := scan_window data 1 i
  let s := sv.1
  let v := sv.2 - 1
  if s ≠ 10 ∨ data.res_seq v ≤ data.res_seq i then none
  else
    let c := (List.range (v + 1 - i)).foldl
      (fun c k =>
        window_probe sqrtFn data i v mn1 mn2 mn3 nbx1 nbx2 nbx3 g rsq ssq ndelta (i + k) c)
      (fun _ _ => 0)
    let temp2 := (List.range 3).foldl
      (fun acc q => (List.range 3).foldl (fun acc r => acc + c (q + 1) (r + 1)) acc) 0
    if MAXWIN < temp2 then
      let matrix : ℕ → ℚ := fun u =>
        if u = 1 then c 1 1 / temp2
        else if u = 2 then (c 1 2 + c 2 1) / temp2
        else if u = 3 then (c 1 3 + c 3 1) / temp2
        else if u = 4 then c 2 2 / temp2
        else if u = 5 then (c 2 3 + c 3 2) / temp2
        else 0
      some (.value (usize_of_int (data.resnum i + 4)) (matrixdb matrix))
    else some (.warn (data.resnum i + 4))

/-! ### `compute_errat` (`src/lib.rs` lines 965-1142) -/

/-- The bounding-box fold (lines 966-1006): min components start at `999.0`,
max components at `-999.0`, then sweep atoms `1..=atmnum`. -/
def bounds_fold (data : AtomData) : (ℚ × ℚ × ℚ) × (ℚ × ℚ × ℚ) :=
  (List.range data.atmnum).foldl
    (fun b k =>
      let i := k + 1
      let vx := data.xyz_x i
      let vy := data.xyz_y i
      let vz := data.xyz_z i
      let mn1 := if vx < b.1.1 then vx else b.1.1
      let mx1 := if b.2.1 < vx then vx else b.2.1
      let mn2 := if vy < b.1.2.1 then vy else b.1.2.1
      let mx2 := if b.2.2.1 < vy then vy else b.2.2.1
      let mn3 := if vz < b.1.2.2 then vz else b.1.2.2
      let mx3 := if b.2.2.2 < vz then vz else b.2.2.2
      ((mn1, mn2, mn3), (mx1, mx2, mx3)))
    ((999, 999, 999), (-999, -999, -999))

/-- The statistics record returned by `compute_errat`
(`struct ErratStats`, lines 43-51). -/
structure ErratStats where
  stat : ℚ
  pstat : ℚ
  errat : ℕ → ℚ
  resnum : ℕ → ℤ
  chain_id : ℕ → Char
  atmnum : ℕ

/-- The per-start window starts of the parallel stage (lines 1065-1067):
every atom that is first, or whose resnum strictly exceeds its predecessor's. -/
def window_starts (data : AtomData) : List ℕ :=
  ((List.range data.atmnum).map (fun k => k + 1)).filter
    (fun i => i = 1 ∨ data.resnum (i - 1) < data.resnum i)

/-- The outcome list of the parallel stage (lines 1069-1085).  The source maps
`compute_window` over `window_starts` with rayon's indexed `par_iter`, whose
`collect` returns results in input order regardless of worker scheduling, so
the list of outcomes is this deterministic map. -/
def window_outcomes (sqrtFn : ℚ → ℚ) (data : AtomData) (mn1 mn2 mn3 : ℚ)
    (nbx1 nbx2 nbx3 : ℤ) (g : Grid) (rsq ssq : ℚ) (ndelta : ℤ) :
    List (Option WindowOutcome) :=
  (window_starts data).map
    (fun i => compute_window sqrtFn i data mn1 mn2 mn3 nbx1 nbx2 nbx3 g rsq ssq ndelta)

/-- `compute_errat` (lines 965-1142): empty input and the two grid failure
modes (`TOO MANY BOXES`, any cell counter above 15) leave `stat = pstat = 0`
and the profile untouched; otherwise build the grid, evaluate every window,
and reduce the outcomes sequentially. -/
def compute_errat (sqrtFn : ℚ → ℚ) (data : AtomData) : ErratStats :=
  if data.atmnum = 0 then
    { stat := 0, pstat := 0, errat := data.errat, resnum := data.resnum,
      chain_id := data.chain_id, atmnum := data.atmnum }
  else
    let b := bounds_fold data
    let mn1 := b.1.1
    let mn2 := b.1.2.1
    let mn3 := b.1.2.2
    let nbx1 := f64_to_i32 ((b.2.1 - mn1) / BOXSIZE) + 1
    let nbx2 := f64_to_i32 ((b.2.2.1 - mn2) / BOXSIZE) + 1
    let nbx3 := f64_to_i32 ((b.2.2.2 - mn3) / BOXSIZE) + 1
    let box_count := nbx1 * nbx2 * nbx3
    if BXMX - 1 < box_count then
      { stat := 0, pstat := 0, errat := data.errat, resnum := data.resnum,
        chain_id := data.chain_id, atmnum := data.atmnum }
    else
      let g := build_grid data mn1 mn2 mn3 nbx1 nbx2
      if (int_range 1 box_count).any (fun ind => decide (15 < g.counts ind)) then
        { stat := 0, pstat := 0, errat := data.errat, resnum := data.resnum,
          chain_id := data.chain_id, atmnum := data.atmnum }
      else
        let rsq := RADIUS * RADIUS
        let ssq := RADMIN * RADMIN
        let ndelta := ⌈RADIUS / BOXSIZE⌉
        let a := aggregate_outcomes data.errat
          (window_outcomes sqrtFn data mn1 mn2 mn3 nbx1 nbx2 nbx3 g rsq ssq ndelta)
        { stat := a.stat, pstat := a.pstat, errat := a.errat, resnum := data.resnum,
          chain_id := data.chain_id, atmnum := data.atmnum }

/-! ### Ingestion (`parse_pdb`, `src/lib.rs` lines 335-493)

A `PdbLine` is one well-formed `ATOM` record of length ≥ 54, reduced to the
fields the parser actually extracts: byte 13 (`n0`), bytes 14-15 (`n1`,
`n2`), the altloc byte 16, the residue name (bytes 17-20), the chain byte 21,
the parsed residue sequence number (bytes 22-26), and the parsed coordinates
(bytes 30-54).  Lines shorter than 6/16/54 bytes and lines not starting with
`"ATOM  "` leave the parser state unchanged in the source (`continue` after
undoing the tentative increment), so omitting them from the input list is
behaviour-preserving. -/

structure PdbLine where
  n0 : Char
  n1 : Char
  n2 : Char
  altLoc : Char
  resName : String
  chainId : Char
  resSeq : ℤ
  x : ℚ
  y : ℚ
  z : ℚ

/-- `is_standard_residue` (lines 1686-1693). -/
def is_standard_residue (r : String) : Bool :=
  r = "GLY" || r = "ALA" || r = "VAL" || r = "LEU" || r = "ILE" || r = "TYR" || r = "CYS" ||
  r = "MET" || r = "TRP" || r = "PHE" || r = "HIS" || r = "PRO" || r = "SER" || r = "THR" ||
  r = "LYS" || r = "ARG" || r = "GLU" || r = "ASP" || r = "GLN" || r = "ASN"

/-- Element class from byte 13 (lines 378-384). -/
def elem_code (c : Char) : ℤ :=
  if c = 'C' then 1 else if c = 'N' then 2 else if c = 'O' then 3 else 0

/-- Backbone flag from the name field bytes 13-15 (lines 390-395):
`1` exactly for `"N  "` and `"C  "`. -/
def bnam_code (c0 c1 c2 : Char) : ℤ :=
  if (c0 = 'N' ∧ c1 = ' ' ∧ c2 = ' ') ∨ (c0 = 'C' ∧ c1 = ' ' ∧ c2 = ' ') then 1 else 0

/-- Accepted altloc codes (line 412). -/
def altloc_ok (c : Char) : Bool :=
  c = ' ' || c = 'A' || c = 'a' || c = 'P'

/-- The mutable state of the `parse_pdb` loop: the tentative index `i`, the
last accepted index `atmnum`, the chain counter `kadd`, the resnum-decrease
flag `flag2`, the too-many-atoms loop exit `broke`, and the parallel arrays. -/
@[ext]
structure ParseState where
  i : ℕ
  atmnum : ℕ
  kadd : ℤ
  flag2 : Bool
  broke : Bool
  name : ℕ → ℤ
  bnam : ℕ → ℤ
  chain_id : ℕ → Char
  res_seq : ℕ → ℤ
  resnum : ℕ → ℤ
  xyz_x : ℕ → ℚ
  xyz_y : ℕ → ℚ
  xyz_z : ℕ → ℚ
  errat : ℕ → ℚ

/-- The field writes of one `parse_pdb` loop iteration (lines 372-410):
`i += 1` and the writes of the tentative slot `i`. -/
def step_write (s : ParseState) (l : PdbLine) : ParseState :=
  { s with
    i := s.i + 1
    name := Function.update s.name (s.i + 1) (elem_code l.n0)
    bnam := Function.update s.bnam (s.i + 1) (bnam_code l.n0 l.n1 l.n2)
    chain_id := Function.update s.chain_id (s.i + 1) l.chainId
    res_seq := Function.update s.res_seq (s.i + 1) l.resSeq
    xyz_x := Function.update s.xyz_x (s.i + 1) l.x
    xyz_y := Function.update s.xyz_y (s.i + 1) l.y
    xyz_z := Function.update s.xyz_z (s.i + 1) l.z }

/-- The rejection decrements (lines 412-432): the source undoes the index
increment once for a disallowed altloc and once more for a nonstandard
residue name (both can fire on the same record). -/
def step_flags (t : ParseState) (l : PdbLine) : ParseState :=
  let i2 := if !(altloc_ok l.altLoc) then t.i - 1 else t.i
  let i3 := if !(is_standard_residue l.resName) then i2 - 1 else i2
  { t with i := i3 }

/-- The bookkeeping for an accepted record (lines 434-476, the parts guarded
by `!flag`): chain increment when the chain identifier changed, global
residue number assignment and `atmnum` update, the in-chain resnum-decrease
check raising `flag2`, and the zeroing of the profile slot. -/
def step_book (t : ParseState) : ParseState :=
  let kadd' :=
    if 2 ≤ t.i ∧ t.chain_id t.i ≠ t.chain_id (t.i - 1) then t.kadd + 1 else t.kadd
  let t3 : ParseState :=
    { t with
      kadd := kadd'
      resnum := Function.update t.resnum t.i (t.res_seq t.i + kadd' * CHAINDIF)
      atmnum := t.i }
  let t4 : ParseState :=
    if 2 ≤ t3.i ∧ t3.chain_id t3.i = t3.chain_id (t3.i - 1) ∧
        t3.resnum t3.i < t3.resnum (t3.i - 1) then
      { t3 with flag2 := true }
    else t3
  { t4 with errat := Function.update t4.errat (usize_of_int (t4.resnum t4.i + 4)) 0 }

/-- The body of one `parse_pdb` loop iteration after the guards (lines
372-478): write the tentative slot, then either undo the increment(s) for a
rejected record — skipping all the `!flag`-guarded bookkeeping — or run the
chain/resnum bookkeeping for an accepted one. -/
def step_core (s : ParseState) (l : PdbLine) : ParseState :=
  if !(altloc_ok l.altLoc) || !(is_standard_residue l.resName) then
    step_flags (step_write s l) l
  else
    step_book (step_write s l)

/-- One `parse_pdb` loop iteration on one `ATOM` record: nothing happens once
`flag2` is set (the `while !flag2` condition, line 352) or after the
too-many-atoms `break` (line 370); the atom-count ceiling `i + 1 > SIZE - 1`
is checked before the record is ingested (lines 365-371) and only cuts off
further input. -/
def step_line (s : ParseState) (l : PdbLine) : ParseState :=
  if s.flag2 || s.broke then s
  else if SIZE - 1 < s.i + 1 then { s with broke := true }
  else step_core s l

/-- The initial parser state (lines 336-350): zero counters, zeroed arrays,
blank chain identifiers. -/
def init_state : ParseState :=
  { i := 0, atmnum := 0, kadd := 0, flag2 := false, broke := false,
    name := fun _ => 0, bnam := fun _ => 0, chain_id := fun _ => ' ',
    res_seq := fun _ => 0, resnum := fun _ => 0,
    xyz_x := fun _ => 0, xyz_y := fun _ => 0, xyz_z := fun _ => 0,
    errat := fun _ => 0 }

/-- The `parse_pdb` loop over a list of records, from an arbitrary state. -/
def parse_loop (s : ParseState) (ls : List PdbLine) : ParseState :=
  ls.foldl step_line s

/-- `parse_pdb` on a full input. -/
def parse_pdb (ls : List PdbLine) : ParseState :=
  parse_loop init_state ls

/-- The `AtomData` handed to `compute_errat` (lines 481-492). -/
def to_atom_data (s : ParseState) : AtomData :=
  { atmnum := s.atmnum, name := s.name, bnam := s.bnam, chain_id := s.chain_id,
    res_seq := s.res_seq, resnum := s.resnum, xyz_x := s.xyz_x, xyz_y := s.xyz_y,
    xyz_z := s.xyz_z, errat := s.errat }

/-- The whole core pipeline of `run`: parse, then score (lines 82-83). -/
def pipeline (sqrtFn : ℚ → ℚ) (ls : List PdbLine) : ErratStats :=
  compute_errat sqrtFn (to_atom_data (parse_pdb ls))

/-! ### Concrete inputs used by the counterexamples and witnesses -/

/-- Square-root stub for concrete evaluations; every concrete run below keeps
all counted contacts at squared distance ≤ `RADMIN²`, where the source never
evaluates the square root. -/
def sqrt0 : ℚ → ℚ := fun _ => 0

/-- A well-formed `ATOM` record for a `" CA "`-named carbon of residue `rs`
of chain `ch` at `(x, y, 0)`: accepted altloc, standard residue name,
element class Carbon, not backbone-flagged. -/
def atom_line (ch : Char) (rs : ℤ) (x y : ℚ) : PdbLine :=
  { n0 := 'C', n1 := 'A', n2 := ' ', altLoc := ' ', resName := "ALA", chainId := ch,
    resSeq := rs, x := x, y := y, z := 0 }

/-- An `ATOM` record that the parser always rejects (nonstandard residue
name), leaving the retained-atom count unchanged. -/
def reject_line : PdbLine :=
  { n0 := 'C', n1 := 'A', n2 := ' ', altLoc := ' ', resName := "XXX", chainId := 'A',
    resSeq := 11, x := 33, y := 0, z := 0 }

/-- Forty retained atoms: residues 1..10 of chain `A`, four atoms per
residue, residue `r` at `x = 3(r-1)`, the four atoms at `y = 0, 0.4, 0.8,
1.2`.  All counted contacts are between adjacent residues at squared
distance ≤ `10.44 < RADMIN²`. -/
def chainA_atoms : List PdbLine :=
  (List.range 40).map (fun k =>
    atom_line 'A' ((k / 4 : ℕ) + 1 : ℤ) (3 * ((k / 4 : ℕ) : ℚ)) ((k % 4 : ℕ) * (2 / 5 : ℚ)))

/-- C1 input: the forty atoms followed by a same-chain atom whose residue
number drops back to 1. -/
def c1_lines : List PdbLine :=
  chainA_atoms ++ [atom_line 'A' 1 30 0]

/-- C2 prefix: the forty atoms followed by one rejected record. -/
def c2_prefix : List PdbLine :=
  chainA_atoms ++ [reject_line]

/-- C2 input: 250041 `ATOM` records in total, more than the `SIZE = 250000`
ceiling, of which all but the first forty are rejected. -/
def c2_lines : List PdbLine :=
  chainA_atoms ++ List.replicate 250001 reject_line

/-- C4 input: the same forty-atom geometry, but the first five residues on
chain `A` and the last five on chain `B` (the local residue numbers keep
counting 6..10). -/
def c4_lines : List PdbLine :=
  (List.range 40).map (fun k =>
    atom_line (if k < 20 then 'A' else 'B') ((k / 4 : ℕ) + 1 : ℤ)
      (3 * ((k / 4 : ℕ) : ℚ)) ((k % 4 : ℕ) * (2 / 5 : ℚ)))

/-- A one-atom `AtomData` used by small witnesses. -/
def data1 : AtomData :=
  { atmnum := 1, name := fun _ => 1, bnam := fun _ => 0, chain_id := fun _ => 'A',
    res_seq := fun _ => 1, resnum := fun _ => 1, xyz_x := fun _ => 0, xyz_y := fun _ => 0,
    xyz_z := fun _ => 0, errat := fun _ => 0 }

/-- A two-atom `AtomData` holding an adjacent-residue backbone peptide bond:
atom 1 is residue 1's backbone C, atom 2 is residue 2's backbone N, 1.3 Å
apart. -/
def data_bond : AtomData :=
  { atmnum := 2, name := fun j => if j = 1 then 1 else 2, bnam := fun _ => 1,
    chain_id := fun _ => 'A', res_seq := fun j => (j : ℤ), resnum := fun j => (j : ℤ),
    xyz_x := fun j => if j = 1 then 0 else 1.3, xyz_y := fun _ => 0, xyz_z := fun _ => 0,
    errat := fun _ => 0 }

/-- A small outcome list used by witnesses: two scored windows (one flagged),
one skipped start, one warning. -/
def demo_outcomes : List (Option WindowOutcome) :=
  [some (.value 5 20), none, some (.warn 3), some (.value 9 1)]

/-- A state already holding `SIZE - 1` retained atoms, used to witness the
atom-ceiling cutoff. -/
def full_state : ParseState :=
  { i := SIZE - 1, atmnum := SIZE - 1, kadd := 0, flag2 := false, broke := false,
    name := fun _ => 0, bnam := fun _ => 0, chain_id := fun _ => 'A',
    res_seq := fun _ => 0, resnum := fun _ => 0,
    xyz_x := fun _ => 0, xyz_y := fun _ => 0, xyz_z := fun _ => 0,
    errat := fun _ => 0 }

/-! ## Aggregator lemmas -/

theorem agg_step_stat (a : AggState) (o : Option WindowOutcome) :
    (agg_step a o).stat = a.stat + (if is_scored o then 1 else 0) := by
  rcases o with _ | o
  · simp [agg_step, is_scored]
  · rcases o with w | ⟨idx, m⟩ <;> simp [agg_step, is_scored]

theorem lmt_constants_lt : LMT_95 < LMT_99 := by
  rw [LMT_95, LMT_99]
  norm_num

theorem agg_step_pstat (a : AggState) (o : Option WindowOutcome) :
    (agg_step a o).pstat = a.pstat + (if is_flagged o then 1 else 0) := by
  rcases o with _ | o
  · simp [agg_step, is_flagged]
  · rcases o with w | ⟨idx, m⟩
    · simp [agg_step, is_flagged]
    · simp only [agg_step, is_flagged]
      by_cases h99 : LMT_99 < m
      · have h95 : LMT_95 < m := lt_trans lmt_constants_lt h99
        simp [h99, h95]
      · by_cases h95 : LMT_95 < m
        · simp [h99, h95]
        · simp [h99, h95]

theorem agg_step_mtrx (a : AggState) (o : Option WindowOutcome) :
    (agg_step a o).mtrxstat = a.mtrxstat + score_sum [o] := by
  rcases o with _ | o
  · simp [agg_step, score_sum]
  · rcases o with w | ⟨idx, m⟩ <;> simp [agg_step, score_sum]

theorem agg_stat_fold (l : List (Option WindowOutcome)) :
    ∀ a : AggState, (l.foldl agg_step a).stat = a.stat + l.countP is_scored := by
  induction l with
  | nil => intro a; simp
  | cons o t ih =>
      intro a
      rw [List.foldl_cons, ih, agg_step_stat, List.countP_cons]
      split <;> push_cast <;> ring

theorem agg_pstat_fold (l : List (Option WindowOutcome)) :
    ∀ a : AggState, (l.foldl agg_step a).pstat = a.pstat + l.countP is_flagged := by
  induction l with
  | nil => intro a; simp
  | cons o t ih =>
      intro a
      rw [List.foldl_cons, ih, agg_step_pstat, List.countP_cons]
      split <;> push_cast <;> ring

theorem agg_mtrx_fold (l : List (Option WindowOutcome)) :
    ∀ a : AggState, (l.foldl agg_step a).mtrxstat = a.mtrxstat + score_sum l := by
  induction l with
  | nil => intro a; simp [score_sum]
  | cons o t ih =>
      intro a
      rw [List.foldl_cons, ih, agg_step_mtrx]
      rcases o with _ | o
      · simp [score_sum]
      · rcases o with w | ⟨idx, m⟩ <;> simp [score_sum] <;> try ring

theorem aggregate_stat_eq (e0 : ℕ → ℚ) (l : List (Option WindowOutcome)) :
    (aggregate_outcomes e0 l).stat = l.countP is_scored := by
  unfold aggregate_outcomes
  rw [agg_stat_fold]
  simp

theorem aggregate_pstat_eq (e0 : ℕ → ℚ) (l : List (Option WindowOutcome)) :
    (aggregate_outcomes e0 l).pstat = l.countP is_flagged := by
  unfold aggregate_outcomes
  rw [agg_pstat_fold]
  simp

theorem aggregate_mtrx_eq (e0 : ℕ → ℚ) (l : List (Option WindowOutcome)) :
    (aggregate_outcomes e0 l).mtrxstat = score_sum l := by
  unfold aggregate_outcomes
  rw [agg_mtrx_fold]
  simp

/-! ## C3: aggregate statistics -/

/-- C3: for every run, the aggregator's scored count is the number of scored
outcomes, its flagged count is the number of outcomes above the 95%
constant, and its score total is the sum of the scores; whenever the scored
count is positive the quality factor is `100 − 100·flagged/scored` and the
average error is `(sum of scores)/scored`; when the scored count is zero no
quality factor is defined and the `run` report step does not execute. -/
theorem aggregate_statistics_spec (e0 : ℕ → ℚ) (l : List (Option WindowOutcome)) :
    (aggregate_outcomes e0 l).stat = l.countP is_scored ∧
    (aggregate_outcomes e0 l).pstat = l.countP is_flagged ∧
    (aggregate_outcomes e0 l).mtrxstat = score_sum l ∧
    (l.countP is_scored ≠ 0 →
      quality_factor (aggregate_outcomes e0 l).stat (aggregate_outcomes e0 l).pstat =
        some (100 - 100 * (l.countP is_flagged : ℚ) / (l.countP is_scored : ℚ)) ∧
      avg_error (aggregate_outcomes e0 l).stat (aggregate_outcomes e0 l).mtrxstat =
        some (score_sum l / (l.countP is_scored : ℚ))) ∧
    (l.countP is_scored = 0 →
      quality_factor (aggregate_outcomes e0 l).stat (aggregate_outcomes e0 l).pstat = none ∧
      ¬ report_step_runs (aggregate_outcomes e0 l).stat) := by
  have hs := aggregate_stat_eq e0 l
  have hp := aggregate_pstat_eq e0 l
  have hm := aggregate_mtrx_eq e0 l
  refine ⟨hs, hp, hm, ?_, ?_⟩
  · intro hne
    have hpos : (0 : ℚ) < l.countP is_scored := by
      exact_mod_cast Nat.pos_of_ne_zero hne
    constructor
    · rw [quality_factor, hs, hp, if_pos hpos, overall_quality]
    · rw [avg_error, hs, hm, if_pos hpos]
  · intro hz
    have hz' : (aggregate_outcomes e0 l).stat = 0 := by rw [hs, hz]; simp
    refine ⟨?_, ?_⟩
    · rw [quality_factor, hz', if_neg (lt_irrefl 0)]
    · rw [report_step_runs, hz']
      exact lt_irrefl 0

/-- C3 witness: on a concrete run with two scored windows, one of them
flagged, the quality factor and average error take the stated closed forms. -/
theorem aggregate_statistics_spec_witness :
    quality_factor (aggregate_outcomes (fun _ => 0) demo_outcomes).stat
        (aggregate_outcomes (fun _ => 0) demo_outcomes).pstat =
      some (100 - 100 * (demo_outcomes.countP is_flagged : ℚ) /
        (demo_outcomes.countP is_scored : ℚ)) ∧
    avg_error (aggregate_outcomes (fun _ => 0) demo_outcomes).stat
        (aggregate_outcomes (fun _ => 0) demo_outcomes).mtrxstat =
      some (score_sum demo_outcomes / (demo_outcomes.countP is_scored : ℚ)) :=
  (aggregate_statistics_spec (fun _ => 0) demo_outcomes).2.2.2.1 (by with_unfolding_all decide)

/-! ## C5: the flagged counter -/

/-- C5: for every scored window, the flagged counter grows by exactly one
when the score exceeds the 95% constant `11.526684477428809` — also when it
exceeds the 99% constant `17.190823041860433`, which is never counted twice —
and by zero otherwise. -/
theorem flagged_counter_single_increment (a : AggState) (idx : ℕ) (m : ℚ) :
    (agg_step a (some (.value idx m))).pstat =
      a.pstat + (if LMT_95 < m then 1 else 0) := by
  rw [agg_step_pstat]
  simp [is_flagged]

/-! ## C9: flagged ≤ scored and quality-factor bounds -/

theorem flagged_imp_scored (o : Option WindowOutcome) :
    is_flagged o = true → is_scored o = true := by
  rcases o with _ | o
  · simp [is_flagged]
  · rcases o with w | ⟨idx, m⟩ <;> simp [is_flagged, is_scored]

/-- C9: after aggregating any sequence of outcomes the flagged count never
exceeds the scored count, and whenever the quality factor is defined
(scored count positive) it lies in `[0, 100]`. -/
theorem flagged_le_scored_quality_bounds (e0 : ℕ → ℚ) (l : List (Option WindowOutcome)) :
    0 ≤ (aggregate_outcomes e0 l).pstat ∧
    (aggregate_outcomes e0 l).pstat ≤ (aggregate_outcomes e0 l).stat ∧
    (0 < (aggregate_outcomes e0 l).stat →
      0 ≤ overall_quality (aggregate_outcomes e0 l).stat (aggregate_outcomes e0 l).pstat ∧
      overall_quality (aggregate_outcomes e0 l).stat (aggregate_outcomes e0 l).pstat ≤ 100) := by
  have hs := aggregate_stat_eq e0 l
  have hp := aggregate_pstat_eq e0 l
  have hcount : l.countP is_flagged ≤ l.countP is_scored :=
    List.countP_mono_left (fun o _ => flagged_imp_scored o)
  have hple : (aggregate_outcomes e0 l).pstat ≤ (aggregate_outcomes e0 l).stat := by
    rw [hs, hp]
    exact_mod_cast hcount
  have hpnn : 0 ≤ (aggregate_outcomes e0 l).pstat := by
    rw [hp]
    positivity
  refine ⟨hpnn, hple, ?_⟩
  intro hpos
  rw [overall_quality, mul_div_assoc]
  constructor
  · have hdiv : (aggregate_outcomes e0 l).pstat / (aggregate_outcomes e0 l).stat ≤ 1 :=
      (div_le_one hpos).mpr hple
    linarith
  · have hdiv : 0 ≤ (aggregate_outcomes e0 l).pstat / (aggregate_outcomes e0 l).stat :=
      div_nonneg hpnn (le_of_lt hpos)
    linarith

/-- C9 witness: the bounds instantiated on a concrete aggregated run with a
positive scored count. -/
theorem flagged_le_scored_quality_bounds_witness :
    0 ≤ overall_quality (aggregate_outcomes (fun _ => 0) demo_outcomes).stat
        (aggregate_outcomes (fun _ => 0) demo_outcomes).pstat ∧
    overall_quality (aggregate_outcomes (fun _ => 0) demo_outcomes).stat
        (aggregate_outcomes (fun _ => 0) demo_outcomes).pstat ≤ 100 :=
  (flagged_le_scored_quality_bounds (fun _ => 0) demo_outcomes).2.2
    (by with_unfolding_all decide)

/-! ## C6: the discriminant at the mean vector -/

/-- C6: the discriminant function applied to the fixed empirical mean vector
itself evaluates to zero (exactly, in the rational model; the floating-point
run subtracts equal constants, so its intermediate vector is also exactly
zero). -/
theorem matrixdb_at_mean_zero : matrixdb avg = 0 := by
  with_unfolding_all decide

/-! ## C7: peptide-bond pairs contribute nothing -/

/-- C7: a pair of backbone-flagged atoms forming an adjacent-residue peptide
bond (one the C of residue `r`, the other the N of residue `r + 1`, in either
visiting direction) leaves the contact histogram unchanged — for every
window `[i, v]`, every pair position, and every distance. -/
theorem peptide_bond_zero_contribution (sqrtFn : ℚ → ℚ) (data : AtomData)
    (i v rer n : ℕ) (rsq ssq : ℚ) (c : ℕ → ℕ → ℚ)
    (hb1 : data.bnam rer = 1) (hb2 : data.bnam n = 1)
    (hadj : (data.resnum n = data.resnum rer + 1 ∧ data.name rer = 1 ∧ data.name n = 2) ∨
            (data.resnum rer = data.resnum n + 1 ∧ data.name rer = 2 ∧ data.name n = 1)) :
    process_pair sqrtFn data i v rer n rsq ssq c = c := by
  have h1 : data.resnum rer ≠ data.resnum n := by
    rcases hadj with ⟨h, _⟩ | ⟨h, _⟩ <;> omega
  have hbond : data.bnam rer = 1 ∧ data.bnam n = 1 ∧
      ((data.resnum n = data.resnum rer + 1 ∧ data.name rer = 1 ∧ data.name n = 2) ∨
       (data.resnum rer = data.resnum n + 1 ∧ data.name rer = 2 ∧ data.name n = 1)) :=
    ⟨hb1, hb2, hadj⟩
  unfold process_pair
  rw [if_pos h1]
  split
  · simp only [ite_self]
  · next hneg => exact absurd hbond hneg

/-- C7 witness: the two-atom peptide bond of `data_bond`, 1.3 Å apart and
well inside the cutoff, adds nothing to an empty histogram. -/
theorem peptide_bond_zero_contribution_witness :
    process_pair sqrt0 data_bond 1 2 1 2 (RADIUS * RADIUS) (RADMIN * RADMIN)
      (fun _ _ => 0) = (fun _ _ => 0) :=
  peptide_bond_zero_contribution sqrt0 data_bond 1 2 1 2 (RADIUS * RADIUS) (RADMIN * RADMIN)
    (fun _ _ => 0) (by with_unfolding_all decide) (by with_unfolding_all decide)
    (Or.inl (by with_unfolding_all decide))

/-! ## C8: order independence of the aggregation -/

theorem agg_step_comm (a : AggState) (o₁ o₂ : Option WindowOutcome)
    (h : ∀ i₁ m₁ i₂ m₂, o₁ = some (.value i₁ m₁) → o₂ = some (.value i₂ m₂) → i₁ ≠ i₂) :
    agg_step (agg_step a o₁) o₂ = agg_step (agg_step a o₂) o₁ := by
  rcases o₁ with _ | o₁
  · simp [agg_step]
  · rcases o₁ with w₁ | ⟨i₁, m₁⟩
    · rcases o₂ with _ | o₂
      · simp [agg_step]
      · rcases o₂ with w₂ | ⟨i₂, m₂⟩ <;> simp [agg_step]
    · rcases o₂ with _ | o₂
      · simp [agg_step]
      · rcases o₂ with w₂ | ⟨i₂, m₂⟩
        · simp [agg_step]
        · have hne : i₁ ≠ i₂ := h i₁ m₁ i₂ m₂ rfl rfl
          ext <;> simp [agg_step]
          · split_ifs <;> ring
          · ring
          · rw [Function.update_comm hne]

theorem value_idxs_nodup_tail {o : Option WindowOutcome} {t : List (Option WindowOutcome)}
    (h : (value_idxs (o :: t)).Nodup) : (value_idxs t).Nodup := by
  rcases o with _ | o
  · simpa [value_idxs] using h
  · rcases o with w | ⟨idx, m⟩
    · simpa [value_idxs] using h
    · rw [value_idxs, List.filterMap_cons] at h
      simp only [List.nodup_cons] at h
      exact h.2

theorem foldl_agg_perm {l l' : List (Option WindowOutcome)} (hp : l.Perm l') :
    (value_idxs l).Nodup → ∀ a : AggState, l.foldl agg_step a = l'.foldl agg_step a := by
  induction hp with
  | nil => intro _ a; rfl
  | cons x p ih =>
      intro hnd a
      rw [List.foldl_cons, List.foldl_cons]
      exact ih (value_idxs_nodup_tail hnd) _
  | swap x y t =>
      intro hnd a
      rw [List.foldl_cons, List.foldl_cons, List.foldl_cons, List.foldl_cons]
      have hcomm : agg_step (agg_step a y) x = agg_step (agg_step a x) y := by
        apply agg_step_comm
        intro i₁ m₁ i₂ m₂ hy hx
        subst hy; subst hx
        rw [value_idxs, List.filterMap_cons, List.filterMap_cons] at hnd
        simp only [List.nodup_cons, List.mem_cons] at hnd
        exact fun he => hnd.1 (Or.inl he)
      rw [hcomm]
  | trans p₁ p₂ ih₁ ih₂ =>
      intro hnd a
      rw [ih₁ hnd a]
      exact ih₂ (((p₁.filterMap _).nodup_iff).mp hnd) a

/-- C8: the aggregated result is independent of the order in which window
outcomes arrive: for any permutation of an outcome list whose scored profile
slots are pairwise distinct, the whole aggregation state — scored count,
flagged count, score total, and error profile — is unchanged.  The source's
parallel stage (rayon's order-preserving indexed `collect`) followed by the
sequential reduction therefore produces the same result as a single-threaded
evaluation regardless of worker scheduling. -/
theorem aggregate_order_independent (e0 : ℕ → ℚ) (l l' : List (Option WindowOutcome))
    (hp : l.Perm l') (hnd : (value_idxs l).Nodup) :
    aggregate_outcomes e0 l = aggregate_outcomes e0 l' :=
  foldl_agg_perm hp hnd _

/-- C8 witness: two scored outcomes aggregated in both orders give the same
state. -/
theorem aggregate_order_independent_witness :
    aggregate_outcomes (fun _ => 0) [some (.value 5 20), some (.value 9 1)] =
      aggregate_outcomes (fun _ => 0) [some (.value 9 1), some (.value 5 20)] :=
  aggregate_order_independent (fun _ => 0) _ _
    (List.Perm.swap (some (WindowOutcome.value 9 1)) (some (WindowOutcome.value 5 20)) [])
    (by with_unfolding_all decide)

/-! ## C10: bounded, in-bounds grid-cell reads -/

theorem grid_step_inv (data : AtomData) (mn1 mn2 mn3 : ℚ) (nbx1 nbx2 : ℤ)
    (g : Grid) (k bound : ℕ) (hk : k + 1 ≤ bound) (hinv : grid_inv bound g) :
    grid_inv bound (grid_step data mn1 mn2 mn3 nbx1 nbx2 g k) := by
  simp only [grid_step]
  set A := 1 + cell_index mn1 (data.xyz_x (k + 1)) +
    cell_index mn2 (data.xyz_y (k + 1)) * nbx1 +
    cell_index mn3 (data.xyz_z (k + 1)) * nbx1 * nbx2 with hA
  have hbs : (box_slots : ℤ) = 15 := rfl
  have hcA := (hinv A).1
  by_cases hlt : g.counts A < (box_slots : ℤ)
  · rw [if_pos hlt]
    intro ind
    constructor
    · simp only [Function.update_apply]
      split
      · linarith
      · exact (hinv ind).1
    · intro m hm0 hmlt
      simp only [Function.update_apply] at hmlt ⊢
      by_cases he : ind = A
      · rw [if_pos he] at hmlt
        rw [lt_min_iff] at hmlt
        by_cases hme : m = g.counts A
        · have hkey : ind * (box_slots : ℤ) + m = A * (box_slots : ℤ) + g.counts A := by
            rw [he, hme]
          rw [if_pos hkey]
          omega
        · have hkey : ¬ ind * (box_slots : ℤ) + m = A * (box_slots : ℤ) + g.counts A := by
            rw [he]
            intro hcontra
            exact hme (by omega)
          rw [if_neg hkey]
          apply (hinv ind).2 m hm0
          rw [he, lt_min_iff]
          omega
      · rw [if_neg he] at hmlt
        have hkey : ¬ ind * (box_slots : ℤ) + m = A * (box_slots : ℤ) + g.counts A := by
          rw [lt_min_iff] at hmlt
          rw [hbs] at hlt ⊢
          intro hcontra
          exact he (by omega)
        rw [if_neg hkey]
        exact (hinv ind).2 m hm0 hmlt
  · rw [if_neg hlt]
    intro ind
    constructor
    · simp only [Function.update_apply]
      split
      · linarith
      · exact (hinv ind).1
    · intro m hm0 hmlt
      simp only [Function.update_apply] at hmlt
      by_cases he : ind = A
      · rw [if_pos he] at hmlt
        apply (hinv ind).2 m hm0
        rw [he, lt_min_iff]
        rw [lt_min_iff] at hmlt
        rw [hbs] at hlt
        omega
      · rw [if_neg he] at hmlt
        exact (hinv ind).2 m hm0 hmlt

theorem grid_fold_inv (data : AtomData) (mn1 mn2 mn3 : ℚ) (nbx1 nbx2 : ℤ) (bound : ℕ) :
    ∀ ks : List ℕ, (∀ k ∈ ks, k + 1 ≤ bound) → ∀ g : Grid, grid_inv bound g →
      grid_inv bound (ks.foldl (grid_step data mn1 mn2 mn3 nbx1 nbx2) g) := by
  intro ks
  induction ks with
  | nil => intro _ g hg; exact hg
  | cons k t ih =>
      intro hks g hg
      rw [List.foldl_cons]
      exact ih (fun x hx => hks x (List.mem_cons_of_mem _ hx)) _
        (grid_step_inv data mn1 mn2 mn3 nbx1 nbx2 g k bound (hks k (List.mem_cons_self _ _)) hg)

theorem build_grid_inv (data : AtomData) (mn1 mn2 mn3 : ℚ) (nbx1 nbx2 : ℤ) :
    grid_inv data.atmnum (build_grid data mn1 mn2 mn3 nbx1 nbx2) := by
  unfold build_grid
  apply grid_fold_inv
  · intro k hk
    have := List.mem_range.mp hk
    omega
  · intro ind
    refine ⟨le_refl 0, ?_⟩
    intro m hm0 hmlt
    simp only [min_self, min_eq_left] at hmlt
    omega

/-- C10: for every grid cell, the neighbour query (`scan_cell`) reads exactly
`min (occupancy, 15)` atom references — never more than the 15 stored slots —
and every reference read was stored during construction: it is the 1-based
index of a retained atom.  This holds even for cells whose occupancy counter
exceeded 15 during construction (only the first 15 were stored) and for any
cell index, in or out of the grid. -/
theorem grid_query_reads_bounded (data : AtomData) (mn1 mn2 mn3 : ℚ) (nbx1 nbx2 : ℤ)
    (ind : ℤ) (m : ℕ)
    (hm : m < min ((build_grid data mn1 mn2 mn3 nbx1 nbx2).counts ind).toNat box_slots) :
    (List.range
        (min ((build_grid data mn1 mn2 mn3 nbx1 nbx2).counts ind).toNat box_slots)).length =
      min ((build_grid data mn1 mn2 mn3 nbx1 nbx2).counts ind).toNat 15 ∧
    1 ≤ (build_grid data mn1 mn2 mn3 nbx1 nbx2).atoms (ind * box_slots + m) ∧
    (build_grid data mn1 mn2 mn3 nbx1 nbx2).atoms (ind * box_slots + m) ≤ data.atmnum := by
  obtain ⟨hc, hs⟩ := build_grid_inv data mn1 mn2 mn3 nbx1 nbx2 ind
  refine ⟨by rw [List.length_range]; rfl, ?_⟩
  apply hs m (by positivity)
  simp only [box_slots, Nat.cast_ofNat] at hm ⊢
  omega

/-- C10 witness: the one-atom grid of `data1` has occupancy 1 in cell 1, and
its single stored slot holds that atom's index. -/
theorem grid_query_reads_bounded_witness :
    1 ≤ (build_grid data1 0 0 0 1 1).atoms ((1 : ℤ) * (box_slots : ℤ) + ((0 : ℕ) : ℤ)) ∧
    (build_grid data1 0 0 0 1 1).atoms ((1 : ℤ) * (box_slots : ℤ) + ((0 : ℕ) : ℤ)) ≤
      data1.atmnum :=
  (grid_query_reads_bounded data1 0 0 0 1 1 1 0 (by with_unfolding_all decide)).2

/-! ## C4: which starts produce a window outcome -/

theorem scan_window_count (data : AtomData) :
    ∀ k w s, data.atmnum + 1 - w = k → w ≤ data.atmnum → s ≤ 10 →
      (scan_window data s w).1 = min 10 (s + 1 + count_res data w) := by
  intro k
  induction k with
  | zero =>
      intro w s hk hw _
      omega
  | succ kk ih =>
      intro w s hk hw hs
      rw [scan_window]
      by_cases hslt : s < 10
      · rw [dif_pos ⟨hslt, hw⟩]
        by_cases hwe : w = data.atmnum
        · rw [if_pos (Or.inr hwe)]
          rw [scan_window, dif_neg (by omega)]
          rw [count_res, dif_neg (by omega)]
          simp only
          omega
        · have hwlt : w < data.atmnum := lt_of_le_of_ne hw hwe
          rw [count_res, dif_pos hwlt]
          by_cases hb : data.resnum (w + 1) - data.resnum w < 100 ∧
              0 < data.resnum (w + 1) - data.resnum w
          · rw [if_pos (Or.inl hb), if_pos hb]
            rw [ih (w + 1) (s + 1) (by omega) (by omega) (by omega)]
            omega
          · have hcond : ¬ ((data.resnum (w + 1) - data.resnum w < 100 ∧
                0 < data.resnum (w + 1) - data.resnum w) ∨ w = data.atmnum) := by
              intro hor
              rcases hor with hor | hor
              · exact hb hor
              · exact hwe hor
            rw [if_neg hcond, if_neg hb]
            rw [ih (w + 1) s (by omega) (by omega) hs]
            omega
      · rw [dif_neg (by omega)]
        simp only
        omega

theorem isSome_ite_some {α : Type} (c : Prop) [Decidable c] (a b : α) :
    (if c then some a else some b).isSome = true := by
  split <;> rfl

/-- C4 (amended): a window start `i` produces an outcome (score or warning)
exactly when the capped residue walk counts 10 residues — counting a residue
at each positive resnum delta below 100 on the way to the end of the whole
atom sequence, plus one final count at the last atom — and the local residue
number at the walk's final position strictly exceeds the one at `i`.  The
walk does not stop at interior chain boundaries, so the 10 residues may span
two chains; a trailing partial run at the end of the *sequence* yields no
outcome. -/
theorem window_outcome_characterization (sqrtFn : ℚ → ℚ) (data : AtomData)
    (mn1 mn2 mn3 : ℚ) (nbx1 nbx2 nbx3 : ℤ) (g : Grid) (rsq ssq : ℚ) (ndelta : ℤ)
    (i : ℕ) (hi : i ≤ data.atmnum) :
    (compute_window sqrtFn i data mn1 mn2 mn3 nbx1 nbx2 nbx3 g rsq ssq ndelta).isSome =
        true ↔
      (min 10 (2 + count_res data i) = 10 ∧
       data.res_seq i < data.res_seq ((scan_window data 1 i).2 - 1)) := by
  have hcount := scan_window_count data (data.atmnum + 1 - i) i 1 rfl hi (by omega)
  unfold compute_window
  by_cases hcnd : (scan_window data 1 i).1 ≠ 10 ∨
      data.res_seq ((scan_window data 1 i).2 - 1) ≤ data.res_seq i
  · rw [if_pos hcnd]
    simp only [Option.isSome_none, Bool.false_eq_true, false_iff]
    intro hcontra
    rcases hcnd with hcnd | hcnd
    · exact hcnd (by rw [hcount]; omega)
    · exact absurd hcontra.2 (not_lt.mpr hcnd)
  · rw [if_neg hcnd]
    push_neg at hcnd
    constructor
    · intro _
      refine ⟨by rw [← hcount]; exact hcnd.1, hcnd.2⟩
    · intro _
      exact isSome_ite_some _ _ _

set_option maxRecDepth 1000000 in
set_option maxHeartbeats 16000000 in
/-- C4 witness: on the single-chain forty-atom structure, the start at atom 1
satisfies the characterization, so it produces an outcome. -/
theorem window_outcome_characterization_witness :
    (compute_window sqrt0 1 (to_atom_data (parse_pdb chainA_atoms)) 0 0 0 1 1 1
        { counts := fun _ => 0, atoms := fun _ => 0 }
        (RADIUS * RADIUS) (RADMIN * RADMIN) 1).isSome = true :=
  (window_outcome_characterization sqrt0 (to_atom_data (parse_pdb chainA_atoms)) 0 0 0 1 1 1
      { counts := fun _ => 0, atoms := fun _ => 0 } (RADIUS * RADIUS) (RADMIN * RADMIN) 1 1
      (by with_unfolding_all decide)).mpr
    (by with_unfolding_all decide)

set_option maxRecDepth 1000000 in
set_option maxHeartbeats 16000000 in
/-- C4 counterexample: in `c4_lines` chain `A` holds only residues 1-5 (20
atoms) and chain `B` residues 6-10, yet the analysis scores exactly one
window — the one starting at atom 1 in chain `A` — whose score lands in
profile slot 5 and exceeds the 95% constant.  A start in a chain with fewer
than 10 residues therefore *can* produce a scored window (the walk crosses
the chain boundary), contradicting the claim that a partial run at a chain's
end yields no window and no score. -/
theorem c4_counterexample :
    (to_atom_data (parse_pdb c4_lines)).chain_id 1 = 'A' ∧
    (to_atom_data (parse_pdb c4_lines)).chain_id 20 = 'A' ∧
    (to_atom_data (parse_pdb c4_lines)).chain_id 21 = 'B' ∧
    (to_atom_data (parse_pdb c4_lines)).res_seq 1 = 1 ∧
    (to_atom_data (parse_pdb c4_lines)).res_seq 20 = 5 ∧
    (to_atom_data (parse_pdb c4_lines)).res_seq 21 = 6 ∧
    (to_atom_data (parse_pdb c4_lines)).atmnum = 40 ∧
    (pipeline sqrt0 c4_lines).stat = 1 ∧
    LMT_95 < (pipeline sqrt0 c4_lines).errat 5 := by
  with_unfolding_all decide

/-! ## C1, C2: what the ingestion stops actually do -/

theorem step_line_flag2 (s : ParseState) (l : PdbLine) (h : s.flag2 = true) :
    step_line s l = s := by
  rw [step_line, h]
  simp

theorem step_line_broke (s : ParseState) (l : PdbLine) (h : s.broke = true) :
    step_line s l = s := by
  rw [step_line, h]
  simp

theorem parse_loop_flag2 (ls : List PdbLine) :
    ∀ s : ParseState, s.flag2 = true → parse_loop s ls = s := by
  induction ls with
  | nil => intro s _; rfl
  | cons l t ih =>
      intro s h
      rw [parse_loop, List.foldl_cons, step_line_flag2 s l h]
      exact ih s h

theorem parse_loop_broke (ls : List PdbLine) :
    ∀ s : ParseState, s.broke = true → parse_loop s ls = s := by
  induction ls with
  | nil => intro s _; rfl
  | cons l t ih =>
      intro s h
      rw [parse_loop, List.foldl_cons, step_line_broke s l h]
      exact ih s h

theorem step_line_eq_core (s : ParseState) (l : PdbLine)
    (hb : s.broke = false) (hf : s.flag2 = false) (hceil : ¬ SIZE - 1 < s.i + 1) :
    step_line s l = step_core s l := by
  rw [step_line, hb, hf]
  simp only [Bool.or_self]
  rw [if_neg (by simp), if_neg hceil]

/-- A rejected record (accepted altloc, nonstandard residue) only rewrites
the scratch slot `i + 1`; every counter is left in place. -/
theorem step_core_reject (s : ParseState) (l : PdbLine)
    (halt : altloc_ok l.altLoc = true) (hres : is_standard_residue l.resName = false) :
    step_core s l =
      { s with
        name := Function.update s.name (s.i + 1) (elem_code l.n0)
        bnam := Function.update s.bnam (s.i + 1) (bnam_code l.n0 l.n1 l.n2)
        chain_id := Function.update s.chain_id (s.i + 1) l.chainId
        res_seq := Function.update s.res_seq (s.i + 1) l.resSeq
        xyz_x := Function.update s.xyz_x (s.i + 1) l.x
        xyz_y := Function.update s.xyz_y (s.i + 1) l.y
        xyz_z := Function.update s.xyz_z (s.i + 1) l.z } := by
  simp [step_core, step_flags, step_write, halt, hres]

theorem step_line_reject_writes (s : ParseState) (l : PdbLine)
    (hb : s.broke = false) (hf : s.flag2 = false) (hceil : ¬ SIZE - 1 < s.i + 1)
    (halt : altloc_ok l.altLoc = true) (hres : is_standard_residue l.resName = false) :
    step_line s l =
      { s with
        name := Function.update s.name (s.i + 1) (elem_code l.n0)
        bnam := Function.update s.bnam (s.i + 1) (bnam_code l.n0 l.n1 l.n2)
        chain_id := Function.update s.chain_id (s.i + 1) l.chainId
        res_seq := Function.update s.res_seq (s.i + 1) l.resSeq
        xyz_x := Function.update s.xyz_x (s.i + 1) l.x
        xyz_y := Function.update s.xyz_y (s.i + 1) l.y
        xyz_z := Function.update s.xyz_z (s.i + 1) l.z } := by
  rw [step_line_eq_core s l hb hf hceil, step_core_reject s l halt hres]

theorem step_line_reject_stable (s : ParseState) (l : PdbLine)
    (hb : s.broke = false) (hf : s.flag2 = false) (hceil : ¬ SIZE - 1 < s.i + 1)
    (halt : altloc_ok l.altLoc = true) (hres : is_standard_residue l.resName = false) :
    step_line (step_line s l) l = step_line s l := by
  have h1 := step_line_reject_writes s l hb hf hceil halt hres
  have h2 := step_line_reject_writes
    { s with
      name := Function.update s.name (s.i + 1) (elem_code l.n0)
      bnam := Function.update s.bnam (s.i + 1) (bnam_code l.n0 l.n1 l.n2)
      chain_id := Function.update s.chain_id (s.i + 1) l.chainId
      res_seq := Function.update s.res_seq (s.i + 1) l.resSeq
      xyz_x := Function.update s.xyz_x (s.i + 1) l.x
      xyz_y := Function.update s.xyz_y (s.i + 1) l.y
      xyz_z := Function.update s.xyz_z (s.i + 1) l.z } l hb hf hceil halt hres
  rw [h1, h2]
  simp [Function.update_idem]

theorem foldl_replicate_fix {α β : Type} (f : α → β → α) (a : α) (b : β) (n : ℕ)
    (h : f a b = a) : List.foldl f a (List.replicate n b) = a := by
  induction n with
  | zero => rfl
  | succ m ih => rw [List.replicate_succ, List.foldl_cons, h, ih]

/-- C2 (amended): once the retained-atom count has reached the ceiling
(`i + 1 > SIZE - 1`), the next `ATOM` record makes the parser stop reading —
the remaining input is ignored and the state is unchanged apart from the
loop-exit marker; in particular the atoms retained so far are kept
(`atmnum` is untouched) and are handed to `compute_errat` as usual, so the
condition is a cutoff, not a fatal abort. -/
theorem atom_ceiling_cuts_input (s : ParseState) (l : PdbLine) (rest : List PdbLine)
    (hb : s.broke = false) (hf : s.flag2 = false) (hceil : SIZE - 1 < s.i + 1) :
    parse_loop s (l :: rest) = { s with broke := true } ∧
    ({ s with broke := true } : ParseState).atmnum = s.atmnum := by
  constructor
  · rw [parse_loop, List.foldl_cons]
    have hstep : step_line s l = { s with broke := true } := by
      rw [step_line, hb, hf]
      simp only [Bool.or_self]
      rw [if_neg (by simp), if_pos hceil]
    rw [hstep]
    exact parse_loop_broke rest _ rfl
  · rfl

/-- C2 (amended) witness: a state holding `SIZE - 1` retained atoms stops at
the next record and ignores the rest of the input. -/
theorem atom_ceiling_cuts_input_witness :
    parse_loop full_state (reject_line :: [reject_line]) =
      { full_state with broke := true } ∧
    ({ full_state with broke := true } : ParseState).atmnum = full_state.atmnum :=
  atom_ceiling_cuts_input full_state reject_line [reject_line] rfl rfl
    (by with_unfolding_all decide)

/-- The accepted-record bookkeeping on a state whose freshly written slot
`t.i` carries the same chain as slot `t.i - 1` and a smaller residue number:
`flag2` is raised and the record is retained (`atmnum = t.i`). -/
theorem step_book_flag2 (t : ParseState) (h2 : 2 ≤ t.i)
    (hch : t.chain_id t.i = t.chain_id (t.i - 1))
    (hdec : t.res_seq t.i + t.kadd * CHAINDIF < t.resnum (t.i - 1)) :
    (step_book t).flag2 = true ∧ (step_book t).atmnum = t.i := by
  have hne : t.i - 1 ≠ t.i := by omega
  simp [step_book, hch, Function.update_same, Function.update_noteq hne, h2, hdec]

/-- An accepted record whose residue number decreases within the chain:
`flag2` is raised, but the record itself is retained (`atmnum = i + 1`). -/
theorem step_core_accept_decrease (s : ParseState) (l : PdbLine)
    (halt : altloc_ok l.altLoc = true) (hres : is_standard_residue l.resName = true)
    (hi : 1 ≤ s.i) (hch : l.chainId = s.chain_id s.i)
    (hdec : l.resSeq + s.kadd * CHAINDIF < s.resnum s.i) :
    (step_core s l).flag2 = true ∧ (step_core s l).atmnum = s.i + 1 := by
  have hne : s.i ≠ s.i + 1 := by omega
  rw [step_core, if_neg (by simp [halt, hres])]
  have h2 : 2 ≤ (step_write s l).i := by
    simp only [step_write]
    omega
  have hch' : (step_write s l).chain_id (step_write s l).i =
      (step_write s l).chain_id ((step_write s l).i - 1) := by
    simp [step_write, Function.update_same, Function.update_noteq hne, hch]
  have hdec' : (step_write s l).res_seq (step_write s l).i +
      (step_write s l).kadd * CHAINDIF <
      (step_write s l).resnum ((step_write s l).i - 1) := by
    simpa [step_write, Function.update_same] using hdec
  have hb := step_book_flag2 (step_write s l) h2 hch' hdec'
  exact ⟨hb.1, by rw [hb.2]; simp [step_write]⟩

/-- C1 (amended): an in-chain residue-number decrease at an accepted record
raises `flag2` (logged as `RESNUM DECREASE. TERMINATE ANALYSIS`), which makes
the parser ignore the remaining input; the decreasing atom itself stays
retained, and the state is handed onward — ingestion stops, but the analysis
is not aborted. -/
theorem resnum_decrease_cuts_input (s : ParseState) (l : PdbLine) (rest : List PdbLine)
    (hb : s.broke = false) (hf : s.flag2 = false) (hceil : ¬ SIZE - 1 < s.i + 1)
    (halt : altloc_ok l.altLoc = true) (hres : is_standard_residue l.resName = true)
    (hi : 1 ≤ s.i) (hch : l.chainId = s.chain_id s.i)
    (hdec : l.resSeq + s.kadd * CHAINDIF < s.resnum s.i) :
    (step_line s l).flag2 = true ∧
    (step_line s l).atmnum = s.i + 1 ∧
    parse_loop s (l :: rest) = step_line s l := by
  have hcore := step_core_accept_decrease s l halt hres hi hch hdec
  have heq := step_line_eq_core s l hb hf hceil
  refine ⟨by rw [heq]; exact hcore.1, by rw [heq]; exact hcore.2, ?_⟩
  rw [parse_loop, List.foldl_cons]
  exact parse_loop_flag2 rest _ (by rw [heq]; exact hcore.1)

set_option maxRecDepth 1000000 in
set_option maxHeartbeats 16000000 in
/-- C1 (amended) witness: appending a same-chain record with residue number 1
to the forty-atom chain (last residue 10) raises `flag2`, retains the atom,
and makes the parser skip the rest of the input. -/
theorem resnum_decrease_cuts_input_witness :
    (step_line (parse_pdb chainA_atoms) (atom_line 'A' 1 30 0)).flag2 = true ∧
    (step_line (parse_pdb chainA_atoms) (atom_line 'A' 1 30 0)).atmnum =
      (parse_pdb chainA_atoms).i + 1 ∧
    parse_loop (parse_pdb chainA_atoms) (atom_line 'A' 1 30 0 :: [atom_line 'A' 2 33 0]) =
      step_line (parse_pdb chainA_atoms) (atom_line 'A' 1 30 0) :=
  resnum_decrease_cuts_input (parse_pdb chainA_atoms) (atom_line 'A' 1 30 0)
    [atom_line 'A' 2 33 0]
    (by with_unfolding_all decide) (by with_unfolding_all decide)
    (by with_unfolding_all decide) (by with_unfolding_all decide)
    (by with_unfolding_all decide) (by with_unfolding_all decide)
    (by with_unfolding_all decide) (by with_unfolding_all decide)

set_option maxRecDepth 1000000 in
set_option maxHeartbeats 16000000 in
/-- C1 counterexample: `c1_lines` triggers the in-chain residue-number
decrease (`flag2` raised, parsing stops), yet the decreasing atom is retained
(`atmnum = 41`), one window of the partial data is scored, the error profile
slot 5 holds a score above the 95% constant, and an overall quality factor is
produced — the analysis is neither aborted nor empty. -/
theorem c1_counterexample :
    (parse_pdb c1_lines).flag2 = true ∧
    (parse_pdb c1_lines).atmnum = 41 ∧
    (pipeline sqrt0 c1_lines).stat = 1 ∧
    (pipeline sqrt0 c1_lines).pstat = 1 ∧
    quality_factor (pipeline sqrt0 c1_lines).stat (pipeline sqrt0 c1_lines).pstat =
      some 0 ∧
    LMT_95 < (pipeline sqrt0 c1_lines).errat 5 := by
  with_unfolding_all decide

set_option maxRecDepth 1000000 in
set_option maxHeartbeats 16000000 in
/-- C2 counterexample: `c2_lines` holds 250041 `ATOM` records — more than the
`SIZE = 250000` ceiling — yet the analysis is not aborted: the rejected
records never raise the retained-atom count, the cutoff (`broke`) never even
triggers, forty atoms are retained, two windows are scored and a quality
factor is produced. -/
theorem c2_counterexample :
    c2_lines.length = 250041 ∧ SIZE = 250000 ∧
    (parse_pdb c2_lines).broke = false ∧
    (parse_pdb c2_lines).atmnum = 40 ∧
    (pipeline sqrt0 c2_lines).stat = 2 ∧
    (pipeline sqrt0 c2_lines).pstat = 2 ∧
    quality_factor (pipeline sqrt0 c2_lines).stat (pipeline sqrt0 c2_lines).pstat =
      some 0 := by
  have hfix : step_line (step_line (List.foldl step_line init_state chainA_atoms)
      reject_line) reject_line =
      step_line (List.foldl step_line init_state chainA_atoms) reject_line :=
    step_line_reject_stable _ _ (by with_unfolding_all decide)
      (by with_unfolding_all decide) (by with_unfolding_all decide)
      (by with_unfolding_all decide) (by with_unfolding_all decide)
  have hcollapse : parse_pdb c2_lines = parse_pdb c2_prefix := by
    rw [parse_pdb, parse_pdb, parse_loop, parse_loop, c2_lines, c2_prefix]
    rw [List.foldl_append, List.foldl_append]
    rw [show (250001 : ℕ) = 250000 + 1 from rfl, List.replicate_succ, List.foldl_cons]
    rw [foldl_replicate_fix _ _ _ 250000 hfix]
    rfl
  have hlen : c2_lines.length = 250041 := by
    rw [c2_lines, List.length_append, List.length_replicate, chainA_atoms,
      List.length_map, List.length_range]
  refine ⟨hlen, rfl, ?_, ?_, ?_, ?_, ?_⟩ <;>
    simp only [pipeline, hcollapse] <;> with_unfolding_all decide
